import Mathlib

/-!
Shallow embedding of `src/Control/UAV/Ardupilot/RemoteOperation/Task.cpp`
(the DUNE Ardupilot remote-operation task).

Modelling conventions:
* C++ `float` data is modelled as exact rationals (`ℚ`); every concrete
  constant of the source (`1900.0`, `0.1`, `254.5`, ...) is exactly
  representable both as an IEEE float and as a rational, so the claims
  settled below do not hinge on rounding.
* The global `int rc_pwm[11]` array is a function `Fin 11 → ℤ`; it has
  static storage duration in the source and is therefore zero-initialized.
* A C++ `(int)` cast of a float truncates toward zero: `cppTrunc`.
* An inbound `IMC::RemoteActions` tuple list is modelled by the values the
  source actually reads from it: one `Option ℚ` per axis (`none` stands for
  a missing key, i.e. the `NAN` default of `tl.get`, or a supplied NaN) and
  one `Bool` per button (`true` iff `tl.get(name, 0) == 1`).
* Outbound MAVLink traffic is modelled as the abstract list of packets the
  task packs and hands to `sendData`, keeping exactly the fields the claims
  are about.
-/

namespace RemoteOperation

/-- Constant `PWM_MAX = 1900.0` from the source (integral float, kept in `ℤ`). -/
def PWM_MAX : ℤ := 1900

/-- Constant `PWM_MIN = 1100.0` from the source. -/
def PWM_MIN : ℤ := 1100

/-- Constant `PWM_IDLE = 1500.0` from the source. -/
def PWM_IDLE : ℤ := 1500

/-- Constant `GAIN_MAX = 1.0` from the source. -/
def GAIN_MAX : ℚ := 1

/-- Constant `GAIN_MIN = 0.1` from the source. -/
def GAIN_MIN : ℚ := 1/10

/-- Constant `TRIM_MAX = 200.0` from the source. -/
def TRIM_MAX : ℚ := 200

/-- Constant `TRIM_MIN = -200.0` from the source. -/
def TRIM_MIN : ℚ := -200

/-- Constant `TRIM_STEP = 10` from the source. -/
def TRIM_STEP : ℚ := 10

/-- Truncation toward zero, the semantics of a C++ `(int)` cast of a float:
on a reduced fraction, truncating division of the numerator by the
denominator. -/
def cppTrunc (q : ℚ) : ℤ := q.num.tdiv q.den

/-- The `MAVLink::RadioChannel` calibration record (one per channel; the task
stores eleven of them in `m_args.rc`).  `val` fields come from configuration,
`pwm` fields are set in `onResourceAcquisition`, and `reverse` is toggled by
`onRemoteActions`. -/
structure RadioChannel where
  val_min : ℚ
  val_max : ℚ
  val_neutral : ℚ
  pwm_min : ℤ
  pwm_max : ℤ
  pwm_neutral : ℤ
  reverse : Bool
deriving DecidableEq

/-- Modelled from the spec: `MAVLink::mapRC2PWM` lives in
`DUNE/Utils/MAVLink.hpp`, which is code of this repository not under `src/`.
Following spec section 4.1 it interpolates linearly between `pwm_min` and
`pwm_max` with the channel neutral point as the inflection, inverts the
direction around neutral when `reverse` is set, and per sections 7(e) and 8
the result is silently clamped into `[pwm_min, pwm_max]` (section 8 asserts
the output always lies in that interval).  The result is stored into the
integer channel array. -/
def mapRC2PWM (rc : RadioChannel) (value : ℚ) : ℤ :=
  let raw : ℚ :=
    if rc.val_neutral ≤ value then
      (rc.pwm_neutral : ℚ) +
        (value - rc.val_neutral) * ((rc.pwm_max : ℚ) - (rc.pwm_neutral : ℚ)) /
          (rc.val_max - rc.val_neutral)
    else
      (rc.pwm_neutral : ℚ) -
        (rc.val_neutral - value) * ((rc.pwm_neutral : ℚ) - (rc.pwm_min : ℚ)) /
          (rc.val_neutral - rc.val_min)
  let directed : ℚ := if rc.reverse then 2 * (rc.pwm_neutral : ℚ) - raw else raw
  max rc.pwm_min (min rc.pwm_max (cppTrunc directed))

/-- The channel indices of the `RC_INPUT` enumeration in the source. -/
def Pitch : Fin 11 := 0

/-- `RC_INPUT::Roll = 1`. -/
def Roll : Fin 11 := 1

/-- `RC_INPUT::Throttle = 2`. -/
def Throttle : Fin 11 := 2

/-- `RC_INPUT::Heading = 3`. -/
def Heading : Fin 11 := 3

/-- `RC_INPUT::Forward = 4`. -/
def Forward : Fin 11 := 4

/-- `RC_INPUT::Lateral = 5`. -/
def Lateral : Fin 11 := 5

/-- `RC_INPUT::Camera_Pan = 6`. -/
def Camera_Pan : Fin 11 := 6

/-- `RC_INPUT::Camera_Tilt = 7`. -/
def Camera_Tilt : Fin 11 := 7

/-- `RC_INPUT::Lights_1_Level = 8`. -/
def Lights_1_Level : Fin 11 := 8

/-- `RC_INPUT::Lights_2_Level = 9`. -/
def Lights_2_Level : Fin 11 := 9

/-- `RC_INPUT::Video_Switch = 10`. -/
def Video_Switch : Fin 11 := 10

/-- The state of the task that the claims are about: the control fields of
`struct Task`, the `m_args` fields read by the claimed code paths, and the
global `rc_pwm` array. -/
structure TaskState where
  gain : ℚ
  gain_step : ℤ
  thr_gain : ℚ
  lights_step : ℤ
  cam_steps : ℤ
  pitch_trim : ℚ
  roll_trim : ℚ
  sysid : ℤ
  gcs : ℤ
  rc : Fin 11 → RadioChannel
  rc_pwm : Fin 11 → ℤ

/-- One inbound `IMC::RemoteActions` event, reduced to the tuple-list reads
the source performs: `axes i` is `tl.get(axis[i], NAN)` (`none` when no
numeric value is supplied), each button field is `tl.get(name, 0) == 1`. -/
structure RemoteActions where
  axes : Fin 6 → Option ℚ
  gainUP : Bool
  gainDown : Bool
  tiltUP : Bool
  tiltDown : Bool
  center : Bool
  lightBrighter : Bool
  lightDimmer : Bool
  pitchForward : Bool
  pitchBackward : Bool
  rollRight : Bool
  rollLeft : Bool
  stabilize : Bool
  depthHold : Bool
  positionHold : Bool
  manual : Bool
  disarmBtn : Bool
  armBtn : Bool

/-- The event with no axis data and no buttons pressed (an empty tuple list:
every `tl.get` returns its default). -/
def emptyActions : RemoteActions :=
  { axes := fun _ => none
    gainUP := false, gainDown := false
    tiltUP := false, tiltDown := false, center := false
    lightBrighter := false, lightDimmer := false
    pitchForward := false, pitchBackward := false
    rollRight := false, rollLeft := false
    stabilize := false, depthHold := false, positionHold := false
    manual := false, disarmBtn := false, armBtn := false }

/-- Modelled from the spec: the `MAVLink::SUB_MODE_*` identifiers live in
`DUNE/Utils/MAVLink.hpp`, not under `src/`; the spec treats them as opaque
mode identifiers, so only their distinctness is meaningful here. -/
def SUB_MODE_STABILIZE : ℤ := 0

/-- Modelled from the spec: opaque identifier for the depth-hold mode. -/
def SUB_MODE_DEPTH_HOLD : ℤ := 2

/-- Modelled from the spec: opaque identifier for the position-hold mode. -/
def SUB_MODE_POS_HOLD : ℤ := 16

/-- Modelled from the spec: opaque identifier for the manual mode. -/
def SUB_MODE_MANUAL : ℤ := 19

/-- One outbound packet, keeping the fields the claims mention:
`setMode` is `mavlink_msg_set_mode_pack`, `armDisarm f` is
`packCmd2Buffer(MAV_CMD_COMPONENT_ARM_DISARM, ..., f)`, `rcOverride` is
`mavlink_msg_rc_channels_override_pack` with the list of channel pulse
widths it carries, `opControl r` is
`mavlink_msg_change_operator_control_pack` with release flag `r`, and
`paramSet` is `mavlink_msg_param_set_pack`. -/
inductive Command where
  | setMode (mode : ℤ)
  | armDisarm (flag : ℤ)
  | rcOverride (chans : List ℤ)
  | opControl (release : ℤ)
  | paramSet (pid : String) (value : ℚ)
deriving DecidableEq

/-- `Task::actuate`: pack `rc_channels_override` with channels
`rc_pwm[0] .. rc_pwm[7]` (the pack call has exactly eight channel
arguments) and send it. -/
def actuateMsg (s : TaskState) : Command :=
  Command.rcOverride
    [s.rc_pwm 0, s.rc_pwm 1, s.rc_pwm 2, s.rc_pwm 3,
     s.rc_pwm 4, s.rc_pwm 5, s.rc_pwm 6, s.rc_pwm 7]

/-- `Task::idle`: drive all eleven channels to `PWM_IDLE`, then `actuate`. -/
def idle (s : TaskState) : TaskState × List Command :=
  let s' : TaskState := { s with rc_pwm := fun _ => PWM_IDLE }
  (s', [actuateMsg s'])

/-- `Task::isReversibleAxis`: true for `Forward`, `Lateral`, `Throttle`,
`Heading`. -/
def isReversibleAxis (channel : ℕ) : Bool :=
  channel = 4 || channel = 5 || channel = 2 || channel = 3

/-- The gain block at the top of `Task::onRemoteActions`: `GainUP` adds
`gain_step/100` and clamps to `GAIN_MAX`; otherwise `GainDown` subtracts the
same step and clamps to `GAIN_MIN`. -/
def gainStage (s : TaskState) (e : RemoteActions) : TaskState :=
  if e.gainUP then
    { s with gain := min (s.gain + (s.gain_step : ℚ) / 100) GAIN_MAX }
  else if e.gainDown then
    { s with gain := max (s.gain - (s.gain_step : ℚ) / 100) GAIN_MIN }
  else s

/-- The actuator channel of axis `c` of the axis loop (`channel < 6`, an
index into the 11-entry arrays). -/
def axCh (c : Fin 6) : Fin 11 := Fin.castLE (by norm_num) c

/-- Store a calibration record and a pulse width for channel `i`
(the two assignments `m_args.rc[channel].reverse = ...` and
`rc_pwm[channel] = ...` of the axis loop). -/
def setChan (s : TaskState) (i : Fin 11) (rcv : RadioChannel) (p : ℤ) :
    TaskState :=
  { s with rc := Function.update s.rc i rcv,
           rc_pwm := Function.update s.rc_pwm i p }

/-- Store a pulse width for channel `i` (`rc_pwm[i] = p`). -/
def setPwm (s : TaskState) (i : Fin 11) (p : ℤ) : TaskState :=
  { s with rc_pwm := Function.update s.rc_pwm i p }

/-- One iteration of the axis loop of `Task::onRemoteActions` for channel
`c < 6`: a supplied value is scaled by the gain, the channel `reverse` flag
is set (always `false` on reversible axes, else by comparison with the
channel neutral), and the scaled value is mapped to a pulse; a missing value
resets the channel to `PWM_IDLE` with `reverse = false`. -/
def axisStep (e : RemoteActions) (s : TaskState) (c : Fin 6) : TaskState :=
  match e.axes c with
  | some v =>
      if isReversibleAxis c.val then
        setChan s (axCh c) { s.rc (axCh c) with reverse := false }
          (mapRC2PWM { s.rc (axCh c) with reverse := false } (v * s.gain))
      else
        setChan s (axCh c)
          { s.rc (axCh c) with
              reverse := decide (v * s.gain ≤ (s.rc (axCh c)).val_neutral) }
          (mapRC2PWM
            { s.rc (axCh c) with
                reverse := decide (v * s.gain ≤ (s.rc (axCh c)).val_neutral) }
            (v * s.gain))
  | none =>
      setChan s (axCh c) { s.rc (axCh c) with reverse := false } PWM_IDLE

/-- The whole `for(channel=0; channel<6; channel++)` axis loop. -/
def axesStage (s : TaskState) (e : RemoteActions) : TaskState :=
  (List.finRange 6).foldl (axisStep e) s

/-- The camera-tilt button block: `TiltUP`, else `TiltDown`, else `Center`,
acting on the persisted `rc_pwm[Camera_Tilt]` value. -/
def tiltStage (s : TaskState) (e : RemoteActions) : TaskState :=
  if e.tiltUP then
    setPwm s Camera_Tilt (min (s.rc_pwm Camera_Tilt + s.cam_steps) PWM_MAX)
  else if e.tiltDown then
    setPwm s Camera_Tilt (max (s.rc_pwm Camera_Tilt - s.cam_steps) PWM_MIN)
  else if e.center then
    setPwm s Camera_Tilt PWM_IDLE
  else s

/-- The lights block: `LightBrighter`, else `LightDimmer`; both light
channels receive the same new value, computed from `rc_pwm[Lights_1_Level]`. -/
def lightsStage (s : TaskState) (e : RemoteActions) : TaskState :=
  if e.lightBrighter then
    let newV : ℤ := min (s.rc_pwm Lights_1_Level + s.lights_step) PWM_MAX
    setPwm (setPwm s Lights_1_Level newV) Lights_2_Level newV
  else if e.lightDimmer then
    let newV : ℤ := max (s.rc_pwm Lights_1_Level - s.lights_step) PWM_MIN
    setPwm (setPwm s Lights_1_Level newV) Lights_2_Level newV
  else s

/-- The trim block: four independent `if`s adjusting `m_pitch_trim` and
`m_roll_trim` by `TRIM_STEP`, clamped to `[TRIM_MIN, TRIM_MAX]`. -/
def trimStage (s : TaskState) (e : RemoteActions) : TaskState :=
  let s1 := if e.pitchForward then
      { s with pitch_trim := min (s.pitch_trim + TRIM_STEP) TRIM_MAX } else s
  let s2 := if e.pitchBackward then
      { s1 with pitch_trim := max (s1.pitch_trim - TRIM_STEP) TRIM_MIN } else s1
  let s3 := if e.rollRight then
      { s2 with roll_trim := min (s2.roll_trim + TRIM_STEP) TRIM_MAX } else s2
  if e.rollLeft then
    { s3 with roll_trim := max (s3.roll_trim - TRIM_STEP) TRIM_MIN } else s3

/-- The mode and arm blocks at the end of `Task::onRemoteActions`: six
independent `if`s, each sending one packet when its button is set, in
source order `Stabilize`, `DepthHold`, `PositionHold`, `Manual`, `Disarm`,
`Arm`. -/
def modeArmCommands (e : RemoteActions) : List Command :=
  (if e.stabilize then [Command.setMode SUB_MODE_STABILIZE] else []) ++
  (if e.depthHold then [Command.setMode SUB_MODE_DEPTH_HOLD] else []) ++
  (if e.positionHold then [Command.setMode SUB_MODE_POS_HOLD] else []) ++
  (if e.manual then [Command.setMode SUB_MODE_MANUAL] else []) ++
  (if e.disarmBtn then [Command.armDisarm 0] else []) ++
  (if e.armBtn then [Command.armDisarm 1] else [])

/-- The state part of `Task::onRemoteActions`: the gain block, the axis
loop, the camera-tilt block, the lights block and the trim block, in source
order. -/
def onRemoteActionsState (s : TaskState) (e : RemoteActions) : TaskState :=
  trimStage (lightsStage (tiltStage (axesStage (gainStage s e) e) e) e) e

/-- `Task::onRemoteActions`: the state updates of `onRemoteActionsState`,
then the mode/arm packets and the final unconditional `actuate`. -/
def onRemoteActions (s : TaskState) (e : RemoteActions) :
    TaskState × List Command :=
  (onRemoteActionsState s e,
   modeArmCommands e ++ [actuateMsg (onRemoteActionsState s e)])

/-- `Task::disableControl`: drive channels to idle (which actuates), send a
release-control packet, and restore the remote `SYSID_MYGCS` parameter to
the stored `m_gcs` value. -/
def disableControl (s : TaskState) : TaskState × List Command :=
  let p := idle s
  (p.1, p.2 ++ [Command.opControl 1, Command.paramSet "SYSID_MYGCS" (s.gcs : ℚ)])

/-- `Task::handleParams` on a decoded `param_value` message `(pid, pval)`:
an `else if` chain on the parameter name.  `JS_THR_GAIN` stores the float in
`m_thr_gain`; `JS_LIGHTS_STEPS` and `JS_CAM_TILT_STEP` store the truncated
float in the integer fields `m_lights_step` and `m_cam_steps`; the
`JS_GAIN_STEPS` branch body is the effect-free expression
`(parameter.param_id, (float) m_args.gain_step);` so it changes nothing;
`SYSID_MYGCS` updates `m_gcs` to the truncated float only when the float
differs from both `(float) m_gcs` and `(float) m_sysid`. -/
def handleParams (s : TaskState) (pid : String) (pval : ℚ) : TaskState :=
  if pid = "JS_THR_GAIN" then { s with thr_gain := pval }
  else if pid = "JS_LIGHTS_STEPS" then { s with lights_step := cppTrunc pval }
  else if pid = "JS_CAM_TILT_STEP" then { s with cam_steps := cppTrunc pval }
  else if pid = "JS_GAIN_STEPS" ∧ (s.gain_step : ℚ) ≠ pval then s
  else if pid = "SYSID_MYGCS" ∧ (s.gcs : ℚ) ≠ pval ∧ (s.sysid : ℚ) ≠ pval then
    { s with gcs := cppTrunc pval }
  else s

/-- The default per-axis joystick calibration declared by the constructor
(`RC 1` .. `RC 6` parameter defaults); entries 6..10 of `m_args.rc` have no
configured input range and keep value 0 here (they are never fed to
`mapRC2PWM`). -/
def defaultVal : Fin 11 → ℚ × ℚ × ℚ
  | 0 => (-180, 180, 0)
  | 1 => (-180, 180, 0)
  | 2 => (-1000, 1000, 0)
  | 3 => (-180, 180, 90)
  | 4 => (-1000, 1000, 0)
  | 5 => (-1000, 1000, 0)
  | _ => (0, 0, 0)

/-- The task state after the constructor and `onResourceAcquisition`, with
the default configuration: `m_gain = 0.20`, `m_lights_step = 100`,
`m_cam_steps = 50`, trims 0, `m_sysid = 254`, `m_gcs = 1`, gain step at its
default 10, every channel calibrated to `pwm` range `[1100, 1900]` with
neutral 1500 and `reverse = false`, and the zero-initialized global
`rc_pwm` array (`m_thr_gain` is not initialized by the constructor; 0 is
used here, no claim depends on it). -/
def defaultState : TaskState :=
  { gain := 1/5
    gain_step := 10
    thr_gain := 0
    lights_step := 100
    cam_steps := 50
    pitch_trim := 0
    roll_trim := 0
    sysid := 254
    gcs := 1
    rc := fun i =>
      { val_min := (defaultVal i).1
        val_max := (defaultVal i).2.1
        val_neutral := (defaultVal i).2.2
        pwm_min := PWM_MIN
        pwm_max := PWM_MAX
        pwm_neutral := PWM_IDLE
        reverse := false }
    rc_pwm := fun _ => 0 }

/-- One operator-side operation of the claims: an operator-intent event
(`onRemoteActions`) or an idle command (`idle`). -/
inductive Op where
  | idleCmd : Op
  | event : RemoteActions → Op

/-- Apply one operation to the task state. -/
def applyOp (s : TaskState) (op : Op) : TaskState :=
  match op with
  | .idleCmd => (idle s).1
  | .event e => (onRemoteActions s e).1

/-- Run a sequence of operations. -/
def runOps (s : TaskState) (ops : List Op) : TaskState :=
  ops.foldl applyOp s

/-- Run a sequence of operator-intent events (`onRemoteActions` only). -/
def runEvents (s : TaskState) (es : List RemoteActions) : TaskState :=
  es.foldl (fun st e => (onRemoteActions st e).1) s

/-- Run a sequence of decoded parameter-value messages through
`handleParams`. -/
def runParams (s : TaskState) (msgs : List (String × ℚ)) : TaskState :=
  msgs.foldl (fun st m => handleParams st m.1 m.2) s

/-- MAVLink message-type identifier `MAVLINK_MSG_ID_SYSTEM_TIME` (value from
the external MAVLink schema). -/
def MAVLINK_MSG_ID_SYSTEM_TIME : ℕ := 2

/-- MAVLink message-type identifier `MAVLINK_MSG_ID_PARAM_VALUE`. -/
def MAVLINK_MSG_ID_PARAM_VALUE : ℕ := 22

/-- MAVLink message-type identifier `MAVLINK_MSG_ID_RC_CHANNELS`. -/
def MAVLINK_MSG_ID_RC_CHANNELS : ℕ := 65

/-- The three member-function packet handlers the constructor registers. -/
inductive PktHandler where
  | hParams
  | hSysTime
  | hRC
deriving DecidableEq

/-- The packet-handler registry `m_mlh`, as filled by the constructor:
`PARAM_VALUE`, `SYSTEM_TIME` and `RC_CHANNELS` map to their handlers.  In the
source, `m_mlh[msgid]` on a `std::map` default-constructs a null member
pointer for an absent key and `handleData` skips it; `none` models that
null result. -/
def m_mlh (msgid : ℕ) : Option PktHandler :=
  if msgid = MAVLINK_MSG_ID_PARAM_VALUE then some PktHandler.hParams
  else if msgid = MAVLINK_MSG_ID_SYSTEM_TIME then some PktHandler.hSysTime
  else if msgid = MAVLINK_MSG_ID_RC_CHANNELS then some PktHandler.hRC
  else none

/-- The observable result of `mavlink_parse_char` on one inbound byte (the
parser itself is third-party MAVLink library code): `msg` is the type
identifier of the message completed by this byte, if any, and `dropCount`
is `status.packet_rx_drop_count` after the byte. -/
structure ParseStep where
  msg : Option ℕ
  dropCount : ℕ
deriving DecidableEq

/-- The dispatch loop of `Task::handleData` over the parse results of the
buffered bytes, returning the handler invocations it performs in order: a
nonzero drop count aborts the remaining buffer (`return`), a completed
message looks its type identifier up in `m_mlh` and invokes the handler
only when one is registered (`if (!h) continue`). -/
def handleData : List ParseStep → List (ℕ × PktHandler)
  | [] => []
  | p :: rest =>
      if p.dropCount ≠ 0 then []
      else
        match p.msg with
        | some msgid =>
            match m_mlh msgid with
            | some h => (msgid, h) :: handleData rest
            | none => handleData rest
        | none => handleData rest

/-- The heartbeat period: the constructor initializes `m_timer(1.0)`. -/
def HB_PERIOD : ℚ := 1

/-- Modelled from the spec: `Time::Counter<float>` lives in `DUNE/Time`,
code of this repository not under `src/`.  The spec describes the
HeartbeatTimer as a monotonic counter with fixed period (1 second) that
fires at most once per period and is reset on connection re-establishment:
`overflow` reports true when the period has elapsed and then starts a new
period; `resetAt` starts a new period. -/
structure HeartbeatTimer where
  deadline : ℚ
deriving DecidableEq

/-- Modelled from the spec: start a new full period at instant `now`
(`m_timer.reset()`). -/
def HeartbeatTimer.resetAt (now : ℚ) : HeartbeatTimer :=
  ⟨now + HB_PERIOD⟩

/-- Modelled from the spec: `m_timer.overflow()` at instant `now` fires at
most once per period. -/
def HeartbeatTimer.overflow (c : HeartbeatTimer) (now : ℚ) :
    Bool × HeartbeatTimer :=
  if c.deadline ≤ now then (true, HeartbeatTimer.resetAt now) else (false, c)

/-- One iteration of the `while (!stopping())` loop of `Task::onMain`:
its instant and whether `m_socket` exists. -/
structure MainIter where
  time : ℚ
  socketUp : Bool
deriving DecidableEq

/-- One `onMain` loop iteration, restricted to the heartbeat behaviour of
the claim: with a socket, drain inbound data and send a heartbeat if
`m_timer.overflow()`; without one, wait, reopen the connection and
`m_timer.reset()`.  Returns the timer after the iteration and the instants
at which a heartbeat was emitted. -/
def mainStep (c : HeartbeatTimer) (it : MainIter) : HeartbeatTimer × List ℚ :=
  if it.socketUp then
    let r := c.overflow it.time
    (r.2, if r.1 then [it.time] else [])
  else
    (HeartbeatTimer.resetAt it.time, [])

/-- The instants at which the `onMain` loop emits a heartbeat over a run of
iterations. -/
def heartbeatTimes (c : HeartbeatTimer) : List MainIter → List ℚ
  | [] => []
  | it :: rest => (mainStep c it).2 ++ heartbeatTimes (mainStep c it).1 rest

/-- The event whose tuple list carries only `TiltUP=1`. -/
def eTiltUp : RemoteActions := { emptyActions with tiltUP := true }

/-- The event whose tuple list carries only `TiltDown=1`. -/
def eTiltDown : RemoteActions := { emptyActions with tiltDown := true }

/-- The event whose tuple list carries only `GainUP=1`. -/
def eGainUp : RemoteActions := { emptyActions with gainUP := true }

/-- The event whose tuple list carries `Stabilize=1` and `Manual=1`. -/
def eStabManual : RemoteActions :=
  { emptyActions with stabilize := true, manual := true }

/-- The event whose tuple list carries only `LightBrighter=1`. -/
def eBrighter : RemoteActions := { emptyActions with lightBrighter := true }

/-- The default task state after one idle command (all channels at
`PWM_IDLE`), the state in which a teleoperation session starts
(`consume(Teleoperation)` calls `idle()`). -/
def sIdle : TaskState := (idle defaultState).1

/-- The rational 254.5 (numerator 509, denominator 2), exactly representable
as an IEEE float. -/
def halfVal : ℚ := ⟨509, 2, by norm_num, by norm_num⟩

/-- The mode identifier carried by a set-mode packet, if the packet is one. -/
def modeOf : Command → Option ℤ
  | Command.setMode m => some m
  | _ => none

/-- Whether a packet is an `rc_channels_override` actuation packet. -/
def isOverride : Command → Bool
  | Command.rcOverride _ => true
  | _ => false

/-- Calibration invariant: `onResourceAcquisition` has set every channel's
pulse range to `[PWM_MIN, PWM_MAX]` with neutral `PWM_IDLE`. -/
def CalOk (s : TaskState) : Prop :=
  ∀ i : Fin 11, (s.rc i).pwm_min = PWM_MIN ∧ (s.rc i).pwm_max = PWM_MAX

/-- Every entry of the actuator vector lies in `[PWM_MIN, PWM_MAX]`. -/
def PwmOk (s : TaskState) : Prop :=
  ∀ i : Fin 11, PWM_MIN ≤ s.rc_pwm i ∧ s.rc_pwm i ≤ PWM_MAX

/-- The camera and light step sizes are nonnegative. -/
def StepsOk (s : TaskState) : Prop := 0 ≤ s.cam_steps ∧ 0 ≤ s.lights_step

/-- The combined state invariant used for the actuator-range claim. -/
def Inv (s : TaskState) : Prop := CalOk s ∧ StepsOk s ∧ PwmOk s

lemma setChan_rc_pwm (s : TaskState) (i : Fin 11) (rcv : RadioChannel) (p : ℤ) :
    (setChan s i rcv p).rc_pwm = Function.update s.rc_pwm i p := rfl

lemma setChan_rc (s : TaskState) (i : Fin 11) (rcv : RadioChannel) (p : ℤ) :
    (setChan s i rcv p).rc = Function.update s.rc i rcv := rfl

lemma setPwm_rc_pwm (s : TaskState) (i : Fin 11) (p : ℤ) :
    (setPwm s i p).rc_pwm = Function.update s.rc_pwm i p := rfl

lemma setPwm_rc (s : TaskState) (i : Fin 11) (p : ℤ) :
    (setPwm s i p).rc = s.rc := rfl

lemma gainStage_eta (s : TaskState) (e : RemoteActions) :
    (gainStage s e).rc_pwm = s.rc_pwm ∧ (gainStage s e).rc = s.rc ∧
    (gainStage s e).cam_steps = s.cam_steps ∧
    (gainStage s e).lights_step = s.lights_step ∧
    (gainStage s e).gain_step = s.gain_step := by
  unfold gainStage
  split
  · exact ⟨rfl, rfl, rfl, rfl, rfl⟩
  · split
    · exact ⟨rfl, rfl, rfl, rfl, rfl⟩
    · exact ⟨rfl, rfl, rfl, rfl, rfl⟩

lemma axisStep_eta (e : RemoteActions) (s : TaskState) (c : Fin 6) :
    (axisStep e s c).gain = s.gain ∧
    (axisStep e s c).cam_steps = s.cam_steps ∧
    (axisStep e s c).lights_step = s.lights_step ∧
    (axisStep e s c).gain_step = s.gain_step := by
  unfold axisStep
  cases e.axes c
  · exact ⟨rfl, rfl, rfl, rfl⟩
  · dsimp only
    split
    · exact ⟨rfl, rfl, rfl, rfl⟩
    · exact ⟨rfl, rfl, rfl, rfl⟩

lemma axisStep_rc_pwm_ne (e : RemoteActions) (s : TaskState) (c : Fin 6)
    (i : Fin 11) (h : i ≠ axCh c) :
    (axisStep e s c).rc_pwm i = s.rc_pwm i := by
  unfold axisStep
  cases e.axes c
  · rw [setChan_rc_pwm, Function.update_noteq h]
  · dsimp only
    split
    · rw [setChan_rc_pwm, Function.update_noteq h]
    · rw [setChan_rc_pwm, Function.update_noteq h]

lemma axisStep_rc_ne (e : RemoteActions) (s : TaskState) (c : Fin 6)
    (i : Fin 11) (h : i ≠ axCh c) :
    (axisStep e s c).rc i = s.rc i := by
  unfold axisStep
  cases e.axes c
  · rw [setChan_rc, Function.update_noteq h]
  · dsimp only
    split
    · rw [setChan_rc, Function.update_noteq h]
    · rw [setChan_rc, Function.update_noteq h]

lemma axisStep_none (e : RemoteActions) (s : TaskState) (c : Fin 6)
    (h : e.axes c = none) :
    (axisStep e s c).rc_pwm (axCh c) = PWM_IDLE ∧
    ((axisStep e s c).rc (axCh c)).reverse = false := by
  unfold axisStep
  rw [h]
  rw [setChan_rc_pwm, setChan_rc, Function.update_same, Function.update_same]
  exact ⟨rfl, rfl⟩

lemma mapRC2PWM_bounds (rc : RadioChannel) (v : ℚ) (h : rc.pwm_min ≤ rc.pwm_max) :
    rc.pwm_min ≤ mapRC2PWM rc v ∧ mapRC2PWM rc v ≤ rc.pwm_max := by
  unfold mapRC2PWM
  exact ⟨le_max_left _ _, max_le h (min_le_left _ _)⟩

lemma mapRC2PWM_bounds_of (rc : RadioChannel) (v : ℚ)
    (h1 : rc.pwm_min = PWM_MIN) (h2 : rc.pwm_max = PWM_MAX) :
    PWM_MIN ≤ mapRC2PWM rc v ∧ mapRC2PWM rc v ≤ PWM_MAX := by
  have h := mapRC2PWM_bounds rc v (by rw [h1, h2]; norm_num [PWM_MIN, PWM_MAX])
  rw [h1, h2] at h
  exact h

lemma axisStep_inv (e : RemoteActions) (s : TaskState) (c : Fin 6)
    (h : Inv s) : Inv (axisStep e s c) := by
  obtain ⟨hcal, hsteps, hpwm⟩ := h
  have hc := hcal (axCh c)
  have hmm : (s.rc (axCh c)).pwm_min ≤ (s.rc (axCh c)).pwm_max := by
    rw [hc.1, hc.2]; norm_num [PWM_MIN, PWM_MAX]
  refine ⟨?_, ?_, ?_⟩
  · intro i
    by_cases hi : i = axCh c
    · subst hi
      unfold axisStep
      cases e.axes c
      · rw [setChan_rc, Function.update_same]
        exact hc
      · dsimp only
        split <;> rw [setChan_rc, Function.update_same] <;> exact hc
    · rw [axisStep_rc_ne e s c i hi]
      exact hcal i
  · obtain ⟨h1, h2, h3, h4⟩ := axisStep_eta e s c
    exact ⟨h2 ▸ hsteps.1, h3 ▸ hsteps.2⟩
  · intro i
    by_cases hi : i = axCh c
    · subst hi
      unfold axisStep
      cases e.axes c
      · rw [setChan_rc_pwm, Function.update_same]
        exact ⟨by norm_num [PWM_MIN, PWM_IDLE], by norm_num [PWM_IDLE, PWM_MAX]⟩
      · dsimp only
        split <;> rw [setChan_rc_pwm, Function.update_same] <;>
          exact mapRC2PWM_bounds_of _ _ hc.1 hc.2
    · rw [axisStep_rc_pwm_ne e s c i hi]
      exact hpwm i

lemma ne_axCh_of_ge6 (c : Fin 6) (i : Fin 11) (h : 6 ≤ i.val) : i ≠ axCh c := by
  intro he
  have hv : i.val = c.val := by rw [he]; rfl
  have := c.isLt
  omega

lemma tiltStage_eta (s : TaskState) (e : RemoteActions) :
    (tiltStage s e).rc = s.rc ∧ (tiltStage s e).gain = s.gain ∧
    (tiltStage s e).cam_steps = s.cam_steps ∧
    (tiltStage s e).lights_step = s.lights_step ∧
    (tiltStage s e).gain_step = s.gain_step := by
  unfold tiltStage
  split_ifs <;> exact ⟨rfl, rfl, rfl, rfl, rfl⟩

lemma tiltStage_rc_pwm_ne (s : TaskState) (e : RemoteActions) (i : Fin 11)
    (h : i ≠ Camera_Tilt) : (tiltStage s e).rc_pwm i = s.rc_pwm i := by
  unfold tiltStage
  split_ifs <;> first
    | rfl
    | rw [setPwm_rc_pwm, Function.update_noteq h]

lemma tiltStage_pwm_CT (s : TaskState) (e : RemoteActions) :
    (tiltStage s e).rc_pwm Camera_Tilt =
      (if e.tiltUP then min (s.rc_pwm Camera_Tilt + s.cam_steps) PWM_MAX
       else if e.tiltDown then max (s.rc_pwm Camera_Tilt - s.cam_steps) PWM_MIN
       else if e.center then PWM_IDLE
       else s.rc_pwm Camera_Tilt) := by
  unfold tiltStage
  split_ifs <;> rfl

lemma tiltStage_inv (s : TaskState) (e : RemoteActions) (h : Inv s) :
    Inv (tiltStage s e) := by
  obtain ⟨hcal, hsteps, hpwm⟩ := h
  obtain ⟨hrc, _, hcam, hls, _⟩ := tiltStage_eta s e
  refine ⟨fun i => hrc ▸ hcal i, ⟨hcam ▸ hsteps.1, hls ▸ hsteps.2⟩, fun i => ?_⟩
  by_cases hi : i = Camera_Tilt
  · subst hi
    rw [tiltStage_pwm_CT]
    have h1 := hpwm Camera_Tilt
    have h2 := hsteps.1
    simp only [PWM_MIN, PWM_MAX, PWM_IDLE] at h1 h2 ⊢
    split_ifs <;> omega
  · rw [tiltStage_rc_pwm_ne s e i hi]
    exact hpwm i

lemma lightsStage_eta (s : TaskState) (e : RemoteActions) :
    (lightsStage s e).rc = s.rc ∧ (lightsStage s e).gain = s.gain ∧
    (lightsStage s e).cam_steps = s.cam_steps ∧
    (lightsStage s e).lights_step = s.lights_step ∧
    (lightsStage s e).gain_step = s.gain_step := by
  unfold lightsStage
  split_ifs <;> exact ⟨rfl, rfl, rfl, rfl, rfl⟩

lemma lightsStage_rc_pwm_ne (s : TaskState) (e : RemoteActions) (i : Fin 11)
    (h1 : i ≠ Lights_1_Level) (h2 : i ≠ Lights_2_Level) :
    (lightsStage s e).rc_pwm i = s.rc_pwm i := by
  unfold lightsStage
  split_ifs <;> first
    | rfl
    | rw [setPwm_rc_pwm, Function.update_noteq h2, setPwm_rc_pwm,
          Function.update_noteq h1]

lemma lightsStage_inv (s : TaskState) (e : RemoteActions) (h : Inv s) :
    Inv (lightsStage s e) := by
  obtain ⟨hcal, hsteps, hpwm⟩ := h
  obtain ⟨hrc, _, hcam, hls, _⟩ := lightsStage_eta s e
  refine ⟨fun i => hrc ▸ hcal i, ⟨hcam ▸ hsteps.1, hls ▸ hsteps.2⟩, fun i => ?_⟩
  have h1 := hpwm Lights_1_Level
  have hstep := hsteps.2
  by_cases hi1 : i = Lights_1_Level
  · subst hi1
    unfold lightsStage
    split_ifs <;>
      first
        | exact hpwm _
        | · rw [setPwm_rc_pwm, Function.update_noteq (by decide), setPwm_rc_pwm,
                Function.update_same]
            simp only [PWM_MIN, PWM_MAX] at h1 hstep ⊢
            omega
  · by_cases hi2 : i = Lights_2_Level
    · subst hi2
      unfold lightsStage
      split_ifs <;>
        first
          | exact hpwm _
          | · rw [setPwm_rc_pwm, Function.update_same]
              simp only [PWM_MIN, PWM_MAX] at h1 hstep ⊢
              omega
    · rw [lightsStage_rc_pwm_ne s e i hi1 hi2]
      exact hpwm i

lemma trimStage_eta (s : TaskState) (e : RemoteActions) :
    (trimStage s e).rc_pwm = s.rc_pwm ∧ (trimStage s e).rc = s.rc ∧
    (trimStage s e).gain = s.gain ∧
    (trimStage s e).cam_steps = s.cam_steps ∧
    (trimStage s e).lights_step = s.lights_step ∧
    (trimStage s e).gain_step = s.gain_step := by
  unfold trimStage
  split_ifs <;> exact ⟨rfl, rfl, rfl, rfl, rfl, rfl⟩

lemma trimStage_inv (s : TaskState) (e : RemoteActions) (h : Inv s) :
    Inv (trimStage s e) := by
  obtain ⟨hcal, hsteps, hpwm⟩ := h
  obtain ⟨hpw, hrc, _, hcam, hls, _⟩ := trimStage_eta s e
  exact ⟨fun i => hrc ▸ hcal i, ⟨hcam ▸ hsteps.1, hls ▸ hsteps.2⟩,
         fun i => hpw ▸ hpwm i⟩

lemma foldl_axisStep_eta (e : RemoteActions) :
    ∀ (l : List (Fin 6)) (s : TaskState),
      (l.foldl (axisStep e) s).gain = s.gain ∧
      (l.foldl (axisStep e) s).cam_steps = s.cam_steps ∧
      (l.foldl (axisStep e) s).lights_step = s.lights_step ∧
      (l.foldl (axisStep e) s).gain_step = s.gain_step := by
  intro l
  induction l with
  | nil => exact fun s => ⟨rfl, rfl, rfl, rfl⟩
  | cons a t ih =>
      intro s
      obtain ⟨i1, i2, i3, i4⟩ := ih (axisStep e s a)
      obtain ⟨j1, j2, j3, j4⟩ := axisStep_eta e s a
      exact ⟨i1.trans j1, i2.trans j2, i3.trans j3, i4.trans j4⟩

lemma foldl_axisStep_rc_pwm_ge6 (e : RemoteActions) (i : Fin 11)
    (h : 6 ≤ i.val) :
    ∀ (l : List (Fin 6)) (s : TaskState),
      (l.foldl (axisStep e) s).rc_pwm i = s.rc_pwm i := by
  intro l
  induction l with
  | nil => exact fun s => rfl
  | cons a t ih =>
      intro s
      rw [List.foldl_cons, ih (axisStep e s a),
          axisStep_rc_pwm_ne e s a i (ne_axCh_of_ge6 a i h)]

lemma foldl_axisStep_preserve (e : RemoteActions) (c : Fin 6) :
    ∀ (l : List (Fin 6)) (s : TaskState), c ∉ l →
      (l.foldl (axisStep e) s).rc_pwm (axCh c) = s.rc_pwm (axCh c) ∧
      (l.foldl (axisStep e) s).rc (axCh c) = s.rc (axCh c) := by
  intro l
  induction l with
  | nil => exact fun s _ => ⟨rfl, rfl⟩
  | cons a t ih =>
      intro s hm
      have hca : c ≠ a := fun hh => hm (hh ▸ List.mem_cons_self a t)
      have hct : c ∉ t := fun hh => hm (List.mem_cons_of_mem a hh)
      have hne : axCh c ≠ axCh a := fun hh =>
        hca (Fin.castLE_injective _ hh)
      obtain ⟨i1, i2⟩ := ih (axisStep e s a) hct
      rw [List.foldl_cons]
      exact ⟨i1.trans (axisStep_rc_pwm_ne e s a _ hne),
             i2.trans (axisStep_rc_ne e s a _ hne)⟩

lemma foldl_axisStep_none (e : RemoteActions) (c : Fin 6)
    (hax : e.axes c = none) :
    ∀ (l : List (Fin 6)) (s : TaskState), c ∈ l → l.Nodup →
      (l.foldl (axisStep e) s).rc_pwm (axCh c) = PWM_IDLE ∧
      ((l.foldl (axisStep e) s).rc (axCh c)).reverse = false := by
  intro l
  induction l with
  | nil => exact fun s hm => absurd hm (List.not_mem_nil c)
  | cons a t ih =>
      intro s hm hnd
      rw [List.foldl_cons]
      rcases List.mem_cons.mp hm with hca | hct
      · subst hca
        have hnt : c ∉ t := (List.nodup_cons.mp hnd).1
        obtain ⟨p1, p2⟩ := foldl_axisStep_preserve e c t (axisStep e s c) hnt
        obtain ⟨q1, q2⟩ := axisStep_none e s c hax
        exact ⟨p1.trans q1, by rw [p2]; exact q2⟩
      · exact ih (axisStep e s a) hct (List.nodup_cons.mp hnd).2

lemma axesStage_none (s : TaskState) (e : RemoteActions) (c : Fin 6)
    (hax : e.axes c = none) :
    (axesStage s e).rc_pwm (axCh c) = PWM_IDLE ∧
    ((axesStage s e).rc (axCh c)).reverse = false :=
  foldl_axisStep_none e c hax (List.finRange 6) s
    (List.mem_finRange c) (List.nodup_finRange 6)

lemma axesStage_inv (s : TaskState) (e : RemoteActions) (h : Inv s) :
    Inv (axesStage s e) := by
  unfold axesStage
  generalize List.finRange 6 = l
  induction l generalizing s with
  | nil => exact h
  | cons a t ih => exact ih (axisStep e s a) (axisStep_inv e s a h)

lemma gainStage_inv (s : TaskState) (e : RemoteActions) (h : Inv s) :
    Inv (gainStage s e) := by
  obtain ⟨hcal, hsteps, hpwm⟩ := h
  obtain ⟨h1, h2, h3, h4, _⟩ := gainStage_eta s e
  exact ⟨fun i => h2 ▸ hcal i, ⟨h3 ▸ hsteps.1, h4 ▸ hsteps.2⟩,
         fun i => h1 ▸ hpwm i⟩

lemma onRA_eta (s : TaskState) (e : RemoteActions) :
    (onRemoteActions s e).1.gain = (gainStage s e).gain ∧
    (onRemoteActions s e).1.cam_steps = s.cam_steps ∧
    (onRemoteActions s e).1.lights_step = s.lights_step ∧
    (onRemoteActions s e).1.gain_step = s.gain_step := by
  obtain ⟨g0p, g0r, g0c, g0l, g0s⟩ := gainStage_eta s e
  obtain ⟨a1, a2, a3, a4⟩ :=
    foldl_axisStep_eta e (List.finRange 6) (gainStage s e)
  obtain ⟨t0, t1, t2, t3, t4⟩ := tiltStage_eta (axesStage (gainStage s e) e) e
  obtain ⟨l0, l1, l2, l3, l4⟩ :=
    lightsStage_eta (tiltStage (axesStage (gainStage s e) e) e) e
  obtain ⟨r0, r1, r2, r3, r4, r5⟩ :=
    trimStage_eta (lightsStage (tiltStage (axesStage (gainStage s e) e) e) e) e
  exact ⟨r2.trans (l1.trans (t1.trans a1)),
         r3.trans (l2.trans (t2.trans (a2.trans g0c))),
         r4.trans (l3.trans (t3.trans (a3.trans g0l))),
         r5.trans (l4.trans (t4.trans (a4.trans g0s)))⟩

lemma applyOp_inv (s : TaskState) (op : Op) (h : Inv s) :
    Inv (applyOp s op) := by
  cases op with
  | idleCmd =>
      obtain ⟨hcal, hsteps, _⟩ := h
      exact ⟨hcal, hsteps,
             fun i => ⟨(by norm_num [PWM_MIN, PWM_IDLE] : PWM_MIN ≤ PWM_IDLE),
                       (by norm_num [PWM_IDLE, PWM_MAX] : PWM_IDLE ≤ PWM_MAX)⟩⟩
  | event e =>
      exact trimStage_inv _ _ (lightsStage_inv _ _ (tiltStage_inv _ _
        (axesStage_inv _ _ (gainStage_inv s e h))))

lemma runOps_inv (ops : List Op) : ∀ s : TaskState, Inv s → Inv (runOps s ops) := by
  induction ops with
  | nil => exact fun _ h => h
  | cons a t ih => exact fun s h => ih (applyOp s a) (applyOp_inv s a h)

lemma inv_sIdle : Inv sIdle :=
  ⟨fun _ => ⟨rfl, rfl⟩, ⟨by decide, by decide⟩,
   fun _ => ⟨(by decide : PWM_MIN ≤ PWM_IDLE), (by decide : PWM_IDLE ≤ PWM_MAX)⟩⟩

/-- Claim C1 (counterexample): the claim quantifies over every sequence of
operator-intent events and idle commands, but the global `rc_pwm` array has
static storage duration and is zero-initialized, and nothing initializes it
before the first event; one `TiltUP=1` event from the initial state leaves
`rc_pwm[Camera_Tilt] = 0 + m_cam_steps = 50`, far below `PWM_MIN = 1100`. -/
theorem actuator_range_counterexample :
    (runOps defaultState [Op.event eTiltUp]).rc_pwm Camera_Tilt = 50 ∧
    (runOps defaultState [Op.event eTiltUp]).rc_pwm Camera_Tilt < PWM_MIN := by
  decide

/-- Claim C1 (amended): after any sequence of operator-intent events and
idle commands that begins with an idle command (as happens when a
teleoperation session starts, since `consume(Teleoperation)` calls
`idle()`), every entry of the 11-element actuator vector `rc_pwm` lies in
`[PWM_MIN, PWM_MAX] = [1100, 1900]`. -/
theorem actuator_range_after_idle (ops : List Op) (i : Fin 11) :
    PWM_MIN ≤ (runOps defaultState (Op.idleCmd :: ops)).rc_pwm i ∧
    (runOps defaultState (Op.idleCmd :: ops)).rc_pwm i ≤ PWM_MAX := by
  have h : runOps defaultState (Op.idleCmd :: ops) = runOps sIdle ops := rfl
  rw [h]
  exact (runOps_inv ops sIdle inv_sIdle).2.2 i

lemma onRA_tilt (s : TaskState) (e : RemoteActions) :
    (onRemoteActions s e).1.rc_pwm Camera_Tilt =
      (if e.tiltUP then min (s.rc_pwm Camera_Tilt + s.cam_steps) PWM_MAX
       else if e.tiltDown then max (s.rc_pwm Camera_Tilt - s.cam_steps) PWM_MIN
       else if e.center then PWM_IDLE
       else s.rc_pwm Camera_Tilt) := by
  obtain ⟨r0, _, _, _, _, _⟩ :=
    trimStage_eta (lightsStage (tiltStage (axesStage (gainStage s e) e) e) e) e
  have hax : (axesStage (gainStage s e) e).rc_pwm Camera_Tilt =
      s.rc_pwm Camera_Tilt := by
    unfold axesStage
    rw [foldl_axisStep_rc_pwm_ge6 e Camera_Tilt (by decide) (List.finRange 6)
          (gainStage s e),
        (gainStage_eta s e).1]
  have hcam : (axesStage (gainStage s e) e).cam_steps = s.cam_steps := by
    unfold axesStage
    rw [(foldl_axisStep_eta e (List.finRange 6) (gainStage s e)).2.1,
        (gainStage_eta s e).2.2.1]
  calc (onRemoteActions s e).1.rc_pwm Camera_Tilt
      = (lightsStage (tiltStage (axesStage (gainStage s e) e) e) e).rc_pwm
          Camera_Tilt := congrFun r0 Camera_Tilt
    _ = (tiltStage (axesStage (gainStage s e) e) e).rc_pwm Camera_Tilt :=
        lightsStage_rc_pwm_ne _ e Camera_Tilt (by decide) (by decide)
    _ = _ := by rw [tiltStage_pwm_CT, hax, hcam]

lemma onRA_axis_none (s : TaskState) (e : RemoteActions) (c : Fin 6)
    (h : e.axes c = none) :
    (onRemoteActions s e).1.rc_pwm (axCh c) = PWM_IDLE ∧
    ((onRemoteActions s e).1.rc (axCh c)).reverse = false := by
  obtain ⟨r0, r1, _, _, _, _⟩ :=
    trimStage_eta (lightsStage (tiltStage (axesStage (gainStage s e) e) e) e) e
  obtain ⟨lrc, _, _, _, _⟩ :=
    lightsStage_eta (tiltStage (axesStage (gainStage s e) e) e) e
  obtain ⟨trc, _, _, _, _⟩ := tiltStage_eta (axesStage (gainStage s e) e) e
  obtain ⟨a1, a2⟩ := axesStage_none (gainStage s e) e c h
  have hpwm : (onRemoteActions s e).1.rc_pwm (axCh c) =
      (axesStage (gainStage s e) e).rc_pwm (axCh c) :=
    calc (onRemoteActions s e).1.rc_pwm (axCh c)
        = (lightsStage (tiltStage (axesStage (gainStage s e) e) e) e).rc_pwm
            (axCh c) := congrFun r0 (axCh c)
      _ = (tiltStage (axesStage (gainStage s e) e) e).rc_pwm (axCh c) :=
          lightsStage_rc_pwm_ne _ e (axCh c)
            (Ne.symm (ne_axCh_of_ge6 c Lights_1_Level (by decide)))
            (Ne.symm (ne_axCh_of_ge6 c Lights_2_Level (by decide)))
      _ = (axesStage (gainStage s e) e).rc_pwm (axCh c) :=
          tiltStage_rc_pwm_ne _ e (axCh c)
            (Ne.symm (ne_axCh_of_ge6 c Camera_Tilt (by decide)))
  have hrc : (onRemoteActions s e).1.rc (axCh c) =
      (axesStage (gainStage s e) e).rc (axCh c) :=
    calc (onRemoteActions s e).1.rc (axCh c)
        = (lightsStage (tiltStage (axesStage (gainStage s e) e) e) e).rc
            (axCh c) := congrFun r1 (axCh c)
      _ = (tiltStage (axesStage (gainStage s e) e) e).rc (axCh c) :=
          congrFun lrc (axCh c)
      _ = (axesStage (gainStage s e) e).rc (axCh c) := congrFun trc (axCh c)
  exact ⟨hpwm.trans a1, by rw [hrc]; exact a2⟩

/-- Claim C7 (confirmed): for every state, event and axis `c < 6`, when the
event supplies no numeric value for the axis the axis loop of
`onRemoteActions` sets that channel to the idle pulse (not a stale value)
and clears its `reverse` flag, and the later button blocks do not touch
channels below 6. -/
theorem missing_axis_idle (s : TaskState) (e : RemoteActions) (c : Fin 6)
    (h : e.axes c = none) :
    (onRemoteActions s e).1.rc_pwm (axCh c) = PWM_IDLE ∧
    ((onRemoteActions s e).1.rc (axCh c)).reverse = false :=
  onRA_axis_none s e c h

/-- Claim C7 witness: the empty event supplies no value for axis 0 (Pitch),
so after the cycle that channel is at the idle pulse with `reverse` clear. -/
theorem missing_axis_idle_witness :
    (onRemoteActions defaultState emptyActions).1.rc_pwm (axCh 0) = PWM_IDLE ∧
    ((onRemoteActions defaultState emptyActions).1.rc (axCh 0)).reverse = false :=
  missing_axis_idle defaultState emptyActions 0 rfl

lemma runEvents_cons (s : TaskState) (e : RemoteActions)
    (es : List RemoteActions) :
    runEvents s (e :: es) = runEvents (onRemoteActions s e).1 es := rfl

lemma onRA_tiltUp (s : TaskState) (e : RemoteActions) (h : e.tiltUP = true) :
    (onRemoteActions s e).1.rc_pwm Camera_Tilt =
      min (s.rc_pwm Camera_Tilt + s.cam_steps) PWM_MAX := by
  rw [onRA_tilt, if_pos h]

lemma onRA_tiltDown (s : TaskState) (e : RemoteActions) (h1 : e.tiltUP = false)
    (h2 : e.tiltDown = true) :
    (onRemoteActions s e).1.rc_pwm Camera_Tilt =
      max (s.rc_pwm Camera_Tilt - s.cam_steps) PWM_MIN := by
  rw [onRA_tilt, if_neg (by simp [h1]), if_pos h2]

lemma onRA_tiltCenter (s : TaskState) (e : RemoteActions)
    (h1 : e.tiltUP = false) (h2 : e.tiltDown = false) (h3 : e.center = true) :
    (onRemoteActions s e).1.rc_pwm Camera_Tilt = PWM_IDLE := by
  rw [onRA_tilt, if_neg (by simp [h1]), if_neg (by simp [h2]), if_pos h3]

lemma onRA_tilt_none (s : TaskState) (e : RemoteActions)
    (h1 : e.tiltUP = false) (h2 : e.tiltDown = false) (h3 : e.center = false) :
    (onRemoteActions s e).1.rc_pwm Camera_Tilt = s.rc_pwm Camera_Tilt := by
  rw [onRA_tilt, if_neg (by simp [h1]), if_neg (by simp [h2]),
      if_neg (by simp [h3])]

lemma runEvents_tilt_clamped (n : ℕ) :
    ∀ s : TaskState, s.rc_pwm Camera_Tilt = PWM_MAX → 0 ≤ s.cam_steps →
      (runEvents s (List.replicate n eTiltUp)).rc_pwm Camera_Tilt = PWM_MAX := by
  induction n with
  | zero => exact fun s h _ => h
  | succ m ih =>
      intro s h hc
      rw [List.replicate_succ, runEvents_cons]
      have h1 : (onRemoteActions s eTiltUp).1.rc_pwm Camera_Tilt = PWM_MAX := by
        rw [onRA_tiltUp s eTiltUp rfl, h]
        omega
      have h2 : (onRemoteActions s eTiltUp).1.cam_steps = s.cam_steps :=
        (onRA_eta s eTiltUp).2.1
      have hc' : 0 ≤ (onRemoteActions s eTiltUp).1.cam_steps := by
        rw [h2]; exact hc
      exact ih (onRemoteActions s eTiltUp).1 h1 hc'

lemma tilt_step_val (s : TaskState) (v w : ℤ)
    (hv : s.rc_pwm Camera_Tilt = v) (hc : s.cam_steps = 50)
    (hw : min (v + 50) 1900 = w) :
    (onRemoteActions s eTiltUp).1.rc_pwm Camera_Tilt = w ∧
    (onRemoteActions s eTiltUp).1.cam_steps = 50 := by
  constructor
  · rw [onRA_tiltUp s eTiltUp rfl, hv, hc]
    exact hw
  · rw [(onRA_eta s eTiltUp).2.1, hc]

/-- Claim C8 (confirmed): camera tilt acts on the persisted channel value
with at most one of TiltUp / TiltDown / Center applied per cycle in that
priority order; starting from the idle pulse 1500 with `camera_step = 50`,
one TiltUp yields 1550, TiltUp then TiltDown nets 1550, and eight or more
TiltUps clamp at and stay at `PWM_MAX = 1900`. -/
theorem camera_tilt_behaviour :
    (runEvents sIdle [eTiltUp]).rc_pwm Camera_Tilt = 1550 ∧
    (runEvents sIdle [eTiltUp, eTiltUp, eTiltDown]).rc_pwm Camera_Tilt = 1550 ∧
    (runEvents sIdle (List.replicate 8 eTiltUp)).rc_pwm Camera_Tilt = 1900 ∧
    (∀ n : ℕ,
      (runEvents sIdle (List.replicate (8 + n) eTiltUp)).rc_pwm Camera_Tilt =
        1900) ∧
    (∀ (s : TaskState) (e : RemoteActions),
      (e.tiltUP = true →
        (onRemoteActions s e).1.rc_pwm Camera_Tilt =
          min (s.rc_pwm Camera_Tilt + s.cam_steps) PWM_MAX) ∧
      (e.tiltUP = false → e.tiltDown = true →
        (onRemoteActions s e).1.rc_pwm Camera_Tilt =
          max (s.rc_pwm Camera_Tilt - s.cam_steps) PWM_MIN) ∧
      (e.tiltUP = false → e.tiltDown = false → e.center = true →
        (onRemoteActions s e).1.rc_pwm Camera_Tilt = PWM_IDLE) ∧
      (e.tiltUP = false → e.tiltDown = false → e.center = false →
        (onRemoteActions s e).1.rc_pwm Camera_Tilt =
          s.rc_pwm Camera_Tilt)) := by
  obtain ⟨t1, c1⟩ := tilt_step_val sIdle 1500 1550 rfl rfl (by decide)
  obtain ⟨t2, c2⟩ := tilt_step_val _ 1550 1600 t1 c1 (by decide)
  obtain ⟨t3, c3⟩ := tilt_step_val _ 1600 1650 t2 c2 (by decide)
  obtain ⟨t4, c4⟩ := tilt_step_val _ 1650 1700 t3 c3 (by decide)
  obtain ⟨t5, c5⟩ := tilt_step_val _ 1700 1750 t4 c4 (by decide)
  obtain ⟨t6, c6⟩ := tilt_step_val _ 1750 1800 t5 c5 (by decide)
  obtain ⟨t7, c7⟩ := tilt_step_val _ 1800 1850 t6 c6 (by decide)
  obtain ⟨t8, c8⟩ := tilt_step_val _ 1850 1900 t7 c7 (by decide)
  have td : (onRemoteActions
      (onRemoteActions (onRemoteActions sIdle eTiltUp).1 eTiltUp).1
      eTiltDown).1.rc_pwm Camera_Tilt = 1550 := by
    rw [onRA_tiltDown _ eTiltDown rfl rfl, t2, c2]
    decide
  refine ⟨t1, td, t8, ?_, ?_⟩
  · intro n
    have hsplit : List.replicate (8 + n) eTiltUp =
        List.replicate 8 eTiltUp ++ List.replicate n eTiltUp := by
      rw [List.replicate_add]
    rw [hsplit]
    have happ : runEvents sIdle
        (List.replicate 8 eTiltUp ++ List.replicate n eTiltUp) =
        runEvents (runEvents sIdle (List.replicate 8 eTiltUp))
          (List.replicate n eTiltUp) := by
      unfold runEvents
      rw [List.foldl_append]
    rw [happ]
    have h8 : (runEvents sIdle (List.replicate 8 eTiltUp)).rc_pwm
        Camera_Tilt = PWM_MAX := t8
    have hc8 : 0 ≤ (runEvents sIdle (List.replicate 8 eTiltUp)).cam_steps := by
      have : (runEvents sIdle (List.replicate 8 eTiltUp)).cam_steps =
          (50 : ℤ) := c8
      omega
    exact runEvents_tilt_clamped n _ h8 hc8
  · intro s e
    exact ⟨fun h1 => onRA_tiltUp s e h1,
           fun h1 h2 => onRA_tiltDown s e h1 h2,
           fun h1 h2 h3 => onRA_tiltCenter s e h1 h2 h3,
           fun h1 h2 h3 => onRA_tilt_none s e h1 h2 h3⟩

/-- Claim C8 witness: one TiltUp from the post-idle state takes the tilt
channel from 1500 to `min(1500 + 50, 1900)`. -/
theorem camera_tilt_behaviour_witness :
    (onRemoteActions sIdle eTiltUp).1.rc_pwm Camera_Tilt =
      min (sIdle.rc_pwm Camera_Tilt + sIdle.cam_steps) PWM_MAX :=
  (camera_tilt_behaviour.2.2.2.2 sIdle eTiltUp).1 rfl

lemma lightsStage_pwm (s : TaskState) (e : RemoteActions) :
    (lightsStage s e).rc_pwm Lights_1_Level =
      (if e.lightBrighter then
        min (s.rc_pwm Lights_1_Level + s.lights_step) PWM_MAX
       else if e.lightDimmer then
        max (s.rc_pwm Lights_1_Level - s.lights_step) PWM_MIN
       else s.rc_pwm Lights_1_Level) ∧
    (lightsStage s e).rc_pwm Lights_2_Level =
      (if e.lightBrighter then
        min (s.rc_pwm Lights_1_Level + s.lights_step) PWM_MAX
       else if e.lightDimmer then
        max (s.rc_pwm Lights_1_Level - s.lights_step) PWM_MIN
       else s.rc_pwm Lights_2_Level) := by
  unfold lightsStage
  split_ifs <;> exact ⟨rfl, rfl⟩

lemma onRA_lights (s : TaskState) (e : RemoteActions) :
    (onRemoteActions s e).1.rc_pwm Lights_1_Level =
      (if e.lightBrighter then
        min (s.rc_pwm Lights_1_Level + s.lights_step) PWM_MAX
       else if e.lightDimmer then
        max (s.rc_pwm Lights_1_Level - s.lights_step) PWM_MIN
       else s.rc_pwm Lights_1_Level) ∧
    (onRemoteActions s e).1.rc_pwm Lights_2_Level =
      (if e.lightBrighter then
        min (s.rc_pwm Lights_1_Level + s.lights_step) PWM_MAX
       else if e.lightDimmer then
        max (s.rc_pwm Lights_1_Level - s.lights_step) PWM_MIN
       else s.rc_pwm Lights_2_Level) := by
  obtain ⟨r0, _, _, _, _, _⟩ :=
    trimStage_eta (lightsStage (tiltStage (axesStage (gainStage s e) e) e) e) e
  have hb1 : (tiltStage (axesStage (gainStage s e) e) e).rc_pwm
      Lights_1_Level = s.rc_pwm Lights_1_Level := by
    rw [tiltStage_rc_pwm_ne _ e _ (by decide)]
    unfold axesStage
    rw [foldl_axisStep_rc_pwm_ge6 e _ (by decide) _ (gainStage s e),
        (gainStage_eta s e).1]
  have hb2 : (tiltStage (axesStage (gainStage s e) e) e).rc_pwm
      Lights_2_Level = s.rc_pwm Lights_2_Level := by
    rw [tiltStage_rc_pwm_ne _ e _ (by decide)]
    unfold axesStage
    rw [foldl_axisStep_rc_pwm_ge6 e _ (by decide) _ (gainStage s e),
        (gainStage_eta s e).1]
  have hls : (tiltStage (axesStage (gainStage s e) e) e).lights_step =
      s.lights_step := by
    rw [(tiltStage_eta _ e).2.2.2.1]
    unfold axesStage
    rw [(foldl_axisStep_eta e _ (gainStage s e)).2.2.1,
        (gainStage_eta s e).2.2.2.1]
  constructor
  · calc (onRemoteActions s e).1.rc_pwm Lights_1_Level
        = (lightsStage (tiltStage (axesStage (gainStage s e) e) e) e).rc_pwm
            Lights_1_Level := congrFun r0 Lights_1_Level
      _ = _ := by rw [(lightsStage_pwm _ e).1, hb1, hls]
  · calc (onRemoteActions s e).1.rc_pwm Lights_2_Level
        = (lightsStage (tiltStage (axesStage (gainStage s e) e) e) e).rc_pwm
            Lights_2_Level := congrFun r0 Lights_2_Level
      _ = _ := by rw [(lightsStage_pwm _ e).2, hb1, hb2, hls]

lemma onRA_pwm_other (s : TaskState) (e : RemoteActions) (i : Fin 11)
    (h6 : 6 ≤ i.val) (h7 : i ≠ Camera_Tilt) (h8 : i ≠ Lights_1_Level)
    (h9 : i ≠ Lights_2_Level) :
    (onRemoteActions s e).1.rc_pwm i = s.rc_pwm i := by
  obtain ⟨r0, _, _, _, _, _⟩ :=
    trimStage_eta (lightsStage (tiltStage (axesStage (gainStage s e) e) e) e) e
  calc (onRemoteActions s e).1.rc_pwm i
      = (lightsStage (tiltStage (axesStage (gainStage s e) e) e) e).rc_pwm i :=
        congrFun r0 i
    _ = (tiltStage (axesStage (gainStage s e) e) e).rc_pwm i :=
        lightsStage_rc_pwm_ne _ e i h8 h9
    _ = (axesStage (gainStage s e) e).rc_pwm i :=
        tiltStage_rc_pwm_ne _ e i h7
    _ = s.rc_pwm i := by
        unfold axesStage
        rw [foldl_axisStep_rc_pwm_ge6 e i h6 _ (gainStage s e),
            (gainStage_eta s e).1]

lemma onRA_empty_cmds (s : TaskState) :
    (onRemoteActions s emptyActions).2 =
      [Command.rcOverride
        [PWM_IDLE, PWM_IDLE, PWM_IDLE, PWM_IDLE, PWM_IDLE, PWM_IDLE,
         s.rc_pwm Camera_Pan, s.rc_pwm Camera_Tilt]] := by
  have h0 : (onRemoteActions s emptyActions).2 =
      [actuateMsg (onRemoteActions s emptyActions).1] := rfl
  rw [h0]
  unfold actuateMsg
  rw [show (onRemoteActions s emptyActions).1.rc_pwm 0 = PWM_IDLE from
        (onRA_axis_none s emptyActions 0 rfl).1,
      show (onRemoteActions s emptyActions).1.rc_pwm 1 = PWM_IDLE from
        (onRA_axis_none s emptyActions 1 rfl).1,
      show (onRemoteActions s emptyActions).1.rc_pwm 2 = PWM_IDLE from
        (onRA_axis_none s emptyActions 2 rfl).1,
      show (onRemoteActions s emptyActions).1.rc_pwm 3 = PWM_IDLE from
        (onRA_axis_none s emptyActions 3 rfl).1,
      show (onRemoteActions s emptyActions).1.rc_pwm 4 = PWM_IDLE from
        (onRA_axis_none s emptyActions 4 rfl).1,
      show (onRemoteActions s emptyActions).1.rc_pwm 5 = PWM_IDLE from
        (onRA_axis_none s emptyActions 5 rfl).1,
      show (onRemoteActions s emptyActions).1.rc_pwm 6 = s.rc_pwm Camera_Pan
        from onRA_pwm_other s emptyActions Camera_Pan (by decide) (by decide)
          (by decide) (by decide),
      show (onRemoteActions s emptyActions).1.rc_pwm 7 = s.rc_pwm Camera_Tilt
        from onRA_tilt_none s emptyActions rfl rfl rfl]

/-- Claim C2 (counterexample): one LightBrighter event after idle raises
both light channels to 1600 while the idle state keeps them at 1500, yet
the packets sent on the next cycle from either state are identical: the
`rc_channels_override` pack call carries only channels 1..8, so the light
channels and the video switch are not transmitted at all, contradicting
the claim that all 11 channel values are sent every cycle. -/
theorem actuate_counterexample :
    (onRemoteActions sIdle eBrighter).1.rc_pwm Lights_1_Level = 1600 ∧
    (onRemoteActions sIdle eBrighter).1.rc_pwm Lights_2_Level = 1600 ∧
    sIdle.rc_pwm Lights_1_Level = 1500 ∧
    (onRemoteActions (onRemoteActions sIdle eBrighter).1 emptyActions).2 =
      (onRemoteActions sIdle emptyActions).2 := by
  have hB1 : (onRemoteActions sIdle eBrighter).1.rc_pwm Lights_1_Level =
      1600 := by
    rw [(onRA_lights sIdle eBrighter).1]
    decide
  have hB2 : (onRemoteActions sIdle eBrighter).1.rc_pwm Lights_2_Level =
      1600 := by
    rw [(onRA_lights sIdle eBrighter).2]
    decide
  refine ⟨hB1, hB2, rfl, ?_⟩
  rw [onRA_empty_cmds, onRA_empty_cmds,
      onRA_pwm_other sIdle eBrighter Camera_Pan (by decide) (by decide)
        (by decide) (by decide),
      onRA_tilt_none sIdle eBrighter rfl rfl rfl]

/-- Claim C2 (amended): every `onRemoteActions` cycle unconditionally sends
exactly one actuation packet, and it carries exactly the first eight
channels `rc_pwm[0] .. rc_pwm[7]` of the updated actuator vector (the two
light channels and the video-switch channel are not transmitted). -/
theorem actuate_per_cycle (s : TaskState) (e : RemoteActions) :
    ((onRemoteActions s e).2.filter isOverride) =
      [Command.rcOverride
        [(onRemoteActions s e).1.rc_pwm 0, (onRemoteActions s e).1.rc_pwm 1,
         (onRemoteActions s e).1.rc_pwm 2, (onRemoteActions s e).1.rc_pwm 3,
         (onRemoteActions s e).1.rc_pwm 4, (onRemoteActions s e).1.rc_pwm 5,
         (onRemoteActions s e).1.rc_pwm 6, (onRemoteActions s e).1.rc_pwm 7]] := by
  show (modeArmCommands e ++ [actuateMsg (onRemoteActions s e).1]).filter
      isOverride = _
  rw [List.filter_append]
  have h1 : (modeArmCommands e).filter isOverride = [] := by
    unfold modeArmCommands
    split_ifs <;> rfl
  rw [h1]
  rfl

/-- Claim C3 (counterexample): an event with both `Stabilize=1` and
`Manual=1` makes `onRemoteActions` issue two set-mode packets in the same
cycle (stabilize first, manual second), because the four mode buttons are
four independent `if` statements, not an `else if` chain. -/
theorem mode_commands_counterexample :
    ((onRemoteActions sIdle eStabManual).2.filterMap modeOf).length = 2 ∧
    (onRemoteActions sIdle eStabManual).2.filterMap modeOf =
      [SUB_MODE_STABILIZE, SUB_MODE_MANUAL] := by
  decide

/-- Claim C3 (amended): `onRemoteActions` issues one set-mode packet for
every one of the four mode flags that is set, in the source order
Stabilize, DepthHold, PositionHold, Manual — so several mode-change
commands can be issued in one update cycle. -/
theorem mode_commands_amended (s : TaskState) (e : RemoteActions) :
    (onRemoteActions s e).2.filterMap modeOf =
      (if e.stabilize then [SUB_MODE_STABILIZE] else []) ++
      (if e.depthHold then [SUB_MODE_DEPTH_HOLD] else []) ++
      (if e.positionHold then [SUB_MODE_POS_HOLD] else []) ++
      (if e.manual then [SUB_MODE_MANUAL] else []) := by
  show (modeArmCommands e ++ [actuateMsg (onRemoteActions s e).1]).filterMap
      modeOf = _
  unfold modeArmCommands
  split_ifs <;> rfl

/-- Claim C4 (counterexample): parameter-value messages named `JS_GAIN_MAX`,
`JS_GAIN_MIN` or `JS_GAIN_STEPS` leave the task state completely unchanged:
`handleParams` has no branch at all for the two gain bounds, and the body of
its `JS_GAIN_STEPS` branch is the effect-free expression statement
`(parameter.param_id, (float) m_args.gain_step);` — so three of the six
named tuning parameters update no local field. -/
theorem params_counterexample :
    handleParams defaultState "JS_GAIN_MAX" 3 = defaultState ∧
    handleParams defaultState "JS_GAIN_MIN" 3 = defaultState ∧
    handleParams defaultState "JS_GAIN_STEPS" 3 = defaultState :=
  ⟨rfl, rfl, rfl⟩

/-- Claim C4 (amended): of the six named tuning parameters exactly three
update a local control-state field — `JS_THR_GAIN` stores the received
float in `m_thr_gain`, `JS_LIGHTS_STEPS` and `JS_CAM_TILT_STEP` store its
integer truncation in `m_lights_step` and `m_cam_steps`; `JS_GAIN_STEPS`
changes nothing, and `JS_GAIN_MAX` / `JS_GAIN_MIN` are ignored. -/
theorem params_amended (s : TaskState) (v : ℚ) :
    handleParams s "JS_THR_GAIN" v = { s with thr_gain := v } ∧
    handleParams s "JS_LIGHTS_STEPS" v = { s with lights_step := cppTrunc v } ∧
    handleParams s "JS_CAM_TILT_STEP" v = { s with cam_steps := cppTrunc v } ∧
    handleParams s "JS_GAIN_STEPS" v = s ∧
    handleParams s "JS_GAIN_MAX" v = s ∧
    handleParams s "JS_GAIN_MIN" v = s := by
  refine ⟨?_, ?_, ?_, ?_, ?_, ?_⟩
  · unfold handleParams
    rw [if_pos rfl]
  · unfold handleParams
    rw [if_neg (by decide), if_pos rfl]
  · unfold handleParams
    rw [if_neg (by decide), if_neg (by decide), if_pos rfl]
  · unfold handleParams
    rw [if_neg (by decide), if_neg (by decide), if_neg (by decide)]
    split_ifs with h4 h5
    · rfl
    · exact absurd h5.1 (by decide)
    · rfl
  · unfold handleParams
    rw [if_neg (by decide), if_neg (by decide), if_neg (by decide),
        if_neg (fun h => absurd h.1 (by decide)),
        if_neg (fun h => absurd h.1 (by decide))]
  · unfold handleParams
    rw [if_neg (by decide), if_neg (by decide), if_neg (by decide),
        if_neg (fun h => absurd h.1 (by decide)),
        if_neg (fun h => absurd h.1 (by decide))]

lemma runParams_cons (s : TaskState) (m : String × ℚ)
    (t : List (String × ℚ)) :
    runParams s (m :: t) = runParams (handleParams s m.1 m.2) t := rfl

lemma handleParams_sysid (s : TaskState) (pid : String) (v : ℚ) :
    (handleParams s pid v).sysid = s.sysid := by
  unfold handleParams
  split_ifs <;> rfl

lemma runParams_gcs_ne (msgs : List (String × ℚ)) :
    ∀ s : TaskState,
      (∀ p ∈ msgs, p.1 = "SYSID_MYGCS" → ((cppTrunc p.2 : ℤ) : ℚ) = p.2) →
      s.gcs ≠ s.sysid →
      (runParams s msgs).gcs ≠ (runParams s msgs).sysid := by
  induction msgs with
  | nil => exact fun _ _ h => h
  | cons m t ih =>
      intro s hint h
      rw [runParams_cons]
      refine ih _ (fun p hp h1 => hint p (List.mem_cons_of_mem m hp) h1) ?_
      rw [handleParams_sysid]
      unfold handleParams
      split_ifs with h1 h2 h3 h4 h5
      · exact h
      · exact h
      · exact h
      · exact h
      · intro heq
        have heq' : cppTrunc m.2 = s.sysid := heq
        have hi : ((cppTrunc m.2 : ℤ) : ℚ) = m.2 :=
          hint m (List.mem_cons_self m t) h5.1
        rw [heq'] at hi
        exact h5.2.2 hi
      · exact h

/-- Claim C10 (counterexample): an inbound `SYSID_MYGCS` value of 254.5
passes both float guards (`(float)m_gcs = 1 ≠ 254.5` and
`(float)m_sysid = 254 ≠ 254.5`) but the `(int)` cast truncates it to
`254 = m_sysid`, so `m_gcs` becomes the task's own system id, and
`disableControl` then restores the remote `SYSID_MYGCS` parameter to 254 —
the task's own identifier, contradicting the claim. -/
theorem gcs_counterexample :
    (handleParams defaultState "SYSID_MYGCS" halfVal).gcs = 254 ∧
    (handleParams defaultState "SYSID_MYGCS" halfVal).sysid = 254 ∧
    (disableControl (handleParams defaultState "SYSID_MYGCS" halfVal)).2 =
      [Command.rcOverride [1500, 1500, 1500, 1500, 1500, 1500, 1500, 1500],
       Command.opControl 1, Command.paramSet "SYSID_MYGCS" 254] := by
  decide

/-- Claim C10 (amended): the `SYSID_MYGCS` branch updates `m_gcs` only when
the received float differs from both `(float)m_gcs` and `(float)m_sysid`,
but it stores the integer truncation of that float, so only for message
sequences whose `SYSID_MYGCS` values are integral is `m_gcs ≠ m_sysid` an
invariant; for those sequences `disableControl` always restores the remote
`SYSID_MYGCS` parameter to an identifier other than the task's own. -/
theorem gcs_never_own_id (msgs : List (String × ℚ))
    (hint : ∀ p ∈ msgs, p.1 = "SYSID_MYGCS" → ((cppTrunc p.2 : ℤ) : ℚ) = p.2) :
    (runParams defaultState msgs).gcs ≠ (runParams defaultState msgs).sysid ∧
    (disableControl (runParams defaultState msgs)).2 =
      [actuateMsg (idle (runParams defaultState msgs)).1, Command.opControl 1,
       Command.paramSet "SYSID_MYGCS" ((runParams defaultState msgs).gcs : ℚ)] ∧
    ((runParams defaultState msgs).gcs : ℚ) ≠
      ((runParams defaultState msgs).sysid : ℚ) := by
  have h1 := runParams_gcs_ne msgs defaultState hint (by decide)
  refine ⟨h1, rfl, fun hq => h1 (by exact_mod_cast hq)⟩

/-- Claim C10 witness: a single integral SYSID_MYGCS message (value 7)
keeps `m_gcs` different from `m_sysid`. -/
theorem gcs_never_own_id_witness :
    (runParams defaultState [("SYSID_MYGCS", 7)]).gcs ≠
      (runParams defaultState [("SYSID_MYGCS", 7)]).sysid :=
  (gcs_never_own_id [("SYSID_MYGCS", 7)]
    (by
      intro p hp _
      rw [List.mem_singleton] at hp
      subst hp
      decide)).1

lemma onRA_gain (s : TaskState) (e : RemoteActions) :
    (onRemoteActions s e).1.gain = (gainStage s e).gain :=
  (onRA_eta s e).1

lemma gainStage_cases (s : TaskState) (e : RemoteActions) :
    (e.gainUP = true →
      (gainStage s e).gain =
        min (s.gain + (s.gain_step : ℚ) / 100) GAIN_MAX) ∧
    (e.gainUP = false → e.gainDown = true →
      (gainStage s e).gain =
        max (s.gain - (s.gain_step : ℚ) / 100) GAIN_MIN) ∧
    (e.gainUP = false → e.gainDown = false →
      (gainStage s e).gain = s.gain) := by
  refine ⟨fun h1 => ?_, fun h1 h2 => ?_, fun h1 h2 => ?_⟩ <;>
    unfold gainStage
  · rw [if_pos h1]
  · rw [if_neg (by simp [h1]), if_pos h2]
  · rw [if_neg (by simp [h1]), if_neg (by simp [h2])]

lemma gainStage_mem (s : TaskState) (e : RemoteActions)
    (hsp : 0 ≤ s.gain_step) (h1 : GAIN_MIN ≤ s.gain) (h2 : s.gain ≤ GAIN_MAX) :
    GAIN_MIN ≤ (gainStage s e).gain ∧ (gainStage s e).gain ≤ GAIN_MAX := by
  have hst : (0 : ℚ) ≤ (s.gain_step : ℚ) / 100 := by
    apply div_nonneg _ (by norm_num)
    exact_mod_cast hsp
  unfold gainStage
  split_ifs
  · exact ⟨le_min (by linarith) (by norm_num [GAIN_MIN, GAIN_MAX]),
           min_le_right _ _⟩
  · exact ⟨le_max_right _ _,
           max_le (by linarith) (by norm_num [GAIN_MIN, GAIN_MAX])⟩
  · exact ⟨h1, h2⟩

lemma runEvents_gain_mem (es : List RemoteActions) :
    ∀ s : TaskState, 0 ≤ s.gain_step → GAIN_MIN ≤ s.gain →
      s.gain ≤ GAIN_MAX →
      GAIN_MIN ≤ (runEvents s es).gain ∧ (runEvents s es).gain ≤ GAIN_MAX := by
  induction es with
  | nil => exact fun _ _ h1 h2 => ⟨h1, h2⟩
  | cons e t ih =>
      intro s hsp h1 h2
      rw [runEvents_cons]
      have hg := gainStage_mem s e hsp h1 h2
      have hg1 : GAIN_MIN ≤ (onRemoteActions s e).1.gain := by
        rw [onRA_gain]; exact hg.1
      have hg2 : (onRemoteActions s e).1.gain ≤ GAIN_MAX := by
        rw [onRA_gain]; exact hg.2
      have hsp' : 0 ≤ (onRemoteActions s e).1.gain_step := by
        rw [(onRA_eta s e).2.2.2]; exact hsp
      exact ih _ hsp' hg1 hg2

lemma runEvents_gain_step (es : List RemoteActions) :
    ∀ s : TaskState, (runEvents s es).gain_step = s.gain_step := by
  induction es with
  | nil => exact fun _ => rfl
  | cons e t ih =>
      intro s
      rw [runEvents_cons, ih, (onRA_eta s e).2.2.2]

lemma gain_change_bound (s : TaskState) (e : RemoteActions)
    (h1 : GAIN_MIN ≤ s.gain) (h2 : s.gain ≤ GAIN_MAX) (hsp : 0 ≤ s.gain_step) :
    |(onRemoteActions s e).1.gain - s.gain| ≤ (s.gain_step : ℚ) / 100 := by
  have hst : (0 : ℚ) ≤ (s.gain_step : ℚ) / 100 := by
    apply div_nonneg _ (by norm_num)
    exact_mod_cast hsp
  rw [onRA_gain]
  unfold gainStage
  split_ifs
  · rw [abs_le]
    have hmin : s.gain ≤ min (s.gain + (s.gain_step : ℚ) / 100) GAIN_MAX :=
      le_min (by linarith) h2
    have hle := min_le_left (s.gain + (s.gain_step : ℚ) / 100) GAIN_MAX
    exact ⟨by linarith, by linarith⟩
  · rw [abs_le]
    have hmax : max (s.gain - (s.gain_step : ℚ) / 100) GAIN_MIN ≤ s.gain :=
      max_le (by linarith) h1
    have hge := le_max_left (s.gain - (s.gain_step : ℚ) / 100) GAIN_MIN
    exact ⟨by linarith, by linarith⟩
  · rw [sub_self, abs_zero]
    exact hst

/-- Claim C6 (confirmed): over every sequence of operator-intent events the
gain stays within `[GAIN_MIN, GAIN_MAX] = [0.1, 1.0]`, each further event
changes it by at most `gain_step/100`, and per cycle at most one of the two
adjustments takes effect — GainUp wins when both flags are set, GainDown
applies only when GainUp is clear, and the gain is untouched when neither
is set. -/
theorem gain_invariant (es : List RemoteActions) (e : RemoteActions) :
    (GAIN_MIN ≤ (runEvents defaultState es).gain ∧
     (runEvents defaultState es).gain ≤ GAIN_MAX) ∧
    |(onRemoteActions (runEvents defaultState es) e).1.gain -
        (runEvents defaultState es).gain| ≤
      ((runEvents defaultState es).gain_step : ℚ) / 100 ∧
    (e.gainUP = true →
      (onRemoteActions (runEvents defaultState es) e).1.gain =
        min ((runEvents defaultState es).gain +
          ((runEvents defaultState es).gain_step : ℚ) / 100) GAIN_MAX) ∧
    (e.gainUP = false → e.gainDown = true →
      (onRemoteActions (runEvents defaultState es) e).1.gain =
        max ((runEvents defaultState es).gain -
          ((runEvents defaultState es).gain_step : ℚ) / 100) GAIN_MIN) ∧
    (e.gainUP = false → e.gainDown = false →
      (onRemoteActions (runEvents defaultState es) e).1.gain =
        (runEvents defaultState es).gain) := by
  have hd1 : GAIN_MIN ≤ defaultState.gain := by
    norm_num [defaultState, GAIN_MIN]
  have hd2 : defaultState.gain ≤ GAIN_MAX := by
    norm_num [defaultState, GAIN_MAX]
  have hmem := runEvents_gain_mem es defaultState (by decide) hd1 hd2
  have hgs : (runEvents defaultState es).gain_step = defaultState.gain_step :=
    runEvents_gain_step es defaultState
  have hgs0 : 0 ≤ (runEvents defaultState es).gain_step := by
    rw [hgs]; decide
  refine ⟨hmem,
          gain_change_bound _ e hmem.1 hmem.2 hgs0,
          fun h1 => ?_, fun h1 h2 => ?_, fun h1 h2 => ?_⟩
  · rw [onRA_gain]
    exact (gainStage_cases _ e).1 h1
  · rw [onRA_gain]
    exact (gainStage_cases _ e).2.1 h1 h2
  · rw [onRA_gain]
    exact (gainStage_cases _ e).2.2 h1 h2

/-- Claim C6 witness: from the initial gain 0.20 a GainUp event moves the
gain to `min(0.20 + 10/100, 1.0)`. -/
theorem gain_invariant_witness :
    GAIN_MIN ≤ (runEvents defaultState []).gain ∧
    (runEvents defaultState []).gain ≤ GAIN_MAX ∧
    (onRemoteActions (runEvents defaultState []) eGainUp).1.gain =
      min ((runEvents defaultState []).gain +
        ((runEvents defaultState []).gain_step : ℚ) / 100) GAIN_MAX :=
  ⟨(gain_invariant [] eGainUp).1.1, (gain_invariant [] eGainUp).1.2,
   (gain_invariant [] eGainUp).2.2.1 rfl⟩

lemma mainStep_fire (c : HeartbeatTimer) (it : MainIter)
    (hs : it.socketUp = true) (hf : c.deadline ≤ it.time) :
    mainStep c it = (⟨it.time + HB_PERIOD⟩, [it.time]) := by
  unfold mainStep
  rw [if_pos hs]
  unfold HeartbeatTimer.overflow
  rw [if_pos hf]
  rfl

lemma mainStep_wait (c : HeartbeatTimer) (it : MainIter)
    (hs : it.socketUp = true) (hf : ¬c.deadline ≤ it.time) :
    mainStep c it = (c, []) := by
  unfold mainStep
  rw [if_pos hs]
  unfold HeartbeatTimer.overflow
  rw [if_neg hf]
  rfl

lemma mainStep_reconnect (c : HeartbeatTimer) (it : MainIter)
    (hs : it.socketUp = false) :
    mainStep c it = (HeartbeatTimer.resetAt it.time, []) := by
  unfold mainStep
  rw [if_neg (by simp [hs])]

lemma heartbeatTimes_cons (c : HeartbeatTimer) (it : MainIter)
    (rest : List MainIter) :
    heartbeatTimes c (it :: rest) =
      (mainStep c it).2 ++ heartbeatTimes (mainStep c it).1 rest := rfl

lemma heartbeatTimes_lb (D : ℚ) (its : List MainIter) :
    ∀ c : HeartbeatTimer, D ≤ c.deadline →
      (∀ it ∈ its, D ≤ it.time + HB_PERIOD) →
      ∀ t ∈ heartbeatTimes c its, D ≤ t := by
  induction its with
  | nil =>
      intro c _ _ t ht
      exact absurd ht (List.not_mem_nil t)
  | cons it rest ih =>
      intro c hD hts t ht
      rw [heartbeatTimes_cons] at ht
      by_cases hs : it.socketUp = true
      · by_cases hf : c.deadline ≤ it.time
        · rw [mainStep_fire c it hs hf] at ht
          rcases List.mem_cons.mp ht with h1 | h1
          · subst h1
            exact le_trans hD hf
          · exact ih ⟨it.time + HB_PERIOD⟩
              (hts it (List.mem_cons_self it rest))
              (fun it' hit' => hts it' (List.mem_cons_of_mem it hit'))
              t h1
        · rw [mainStep_wait c it hs hf] at ht
          exact ih c hD
            (fun it' hit' => hts it' (List.mem_cons_of_mem it hit')) t ht
      · have hs' : it.socketUp = false := by
          revert hs
          cases it.socketUp <;> simp
        rw [mainStep_reconnect c it hs'] at ht
        exact ih (HeartbeatTimer.resetAt it.time)
          (hts it (List.mem_cons_self it rest))
          (fun it' hit' => hts it' (List.mem_cons_of_mem it hit')) t ht

lemma heartbeatTimes_spaced (its : List MainIter) :
    ∀ c : HeartbeatTimer,
      List.Pairwise (fun a b : MainIter => a.time ≤ b.time) its →
      List.Pairwise (fun a b : ℚ => a + HB_PERIOD ≤ b)
        (heartbeatTimes c its) := by
  induction its with
  | nil =>
      intro c _
      exact List.Pairwise.nil
  | cons it rest ih =>
      intro c hmono
      obtain ⟨hhead, htail⟩ := List.pairwise_cons.mp hmono
      rw [heartbeatTimes_cons]
      by_cases hs : it.socketUp = true
      · by_cases hf : c.deadline ≤ it.time
        · rw [mainStep_fire c it hs hf]
          refine List.pairwise_cons.mpr ⟨?_, ih _ htail⟩
          intro t ht
          have hb := heartbeatTimes_lb (it.time + HB_PERIOD) rest
            ⟨it.time + HB_PERIOD⟩ (le_refl _)
            (fun it' hit' => by
              have := hhead it' hit'
              linarith) t ht
          exact hb
        · rw [mainStep_wait c it hs hf]
          exact ih c htail
      · have hs' : it.socketUp = false := by
          revert hs
          cases it.socketUp <;> simp
        rw [mainStep_reconnect c it hs']
        exact ih _ htail

/-- Claim C5 (confirmed against the spec-modelled timer): for every run of
the `onMain` loop whose iteration instants are monotone, any two heartbeat
emissions are at least one period (1 second) apart — the timer fires at most
once per period and the loop never emits two heartbeats within the same
period — and every iteration of the socketless reconnection branch resets
the timer to a full period from that instant. -/
theorem heartbeat_once_per_period (c : HeartbeatTimer) (its : List MainIter)
    (hmono : List.Pairwise (fun a b : MainIter => a.time ≤ b.time) its) :
    List.Pairwise (fun a b : ℚ => a + HB_PERIOD ≤ b) (heartbeatTimes c its) ∧
    ∀ (c' : HeartbeatTimer) (it : MainIter), it.socketUp = false →
      (mainStep c' it).1 = HeartbeatTimer.resetAt it.time := by
  refine ⟨heartbeatTimes_spaced its c hmono, fun c' it hs => ?_⟩
  rw [mainStep_reconnect c' it hs]

/-- Claim C5 witness: two connected iterations at the same instant 1 with
the timer due at 1 — the emissions are still spaced by a full period (only
the first fires). -/
theorem heartbeat_once_per_period_witness :
    List.Pairwise (fun a b : ℚ => a + HB_PERIOD ≤ b)
      (heartbeatTimes ⟨1⟩ [⟨1, true⟩, ⟨1, true⟩]) :=
  (heartbeat_once_per_period ⟨1⟩ [⟨1, true⟩, ⟨1, true⟩]
    (by norm_num [List.pairwise_cons])).1

/-- Claim C9 (confirmed): over any inbound parse stream, the dispatch loop
of `handleData` invokes a handler only for the three registered
message-type identifiers (PARAM_VALUE, SYSTEM_TIME, RC_CHANNELS), the
invoked handler is the registered one, and a parsed message whose
identifier has no registered handler never produces an invocation. -/
theorem dispatch_only_registered (stream : List ParseStep) :
    (∀ q ∈ handleData stream, m_mlh q.1 = some q.2 ∧
      (q.1 = MAVLINK_MSG_ID_PARAM_VALUE ∨ q.1 = MAVLINK_MSG_ID_SYSTEM_TIME ∨
       q.1 = MAVLINK_MSG_ID_RC_CHANNELS)) ∧
    ∀ msgid : ℕ, m_mlh msgid = none →
      ∀ h : PktHandler, (msgid, h) ∉ handleData stream := by
  have main : ∀ q ∈ handleData stream, m_mlh q.1 = some q.2 := by
    induction stream with
    | nil =>
        intro q hq
        exact absurd hq (List.not_mem_nil q)
    | cons p rest ih =>
        intro q hq
        unfold handleData at hq
        split at hq
        · exact absurd hq (List.not_mem_nil q)
        · split at hq
          · rename_i msgid _
            split at hq
            · rename_i h hreg
              rcases List.mem_cons.mp hq with h1 | h1
              · subst h1
                exact hreg
              · exact ih q h1
            · exact ih q hq
          · exact ih q hq
  have reg : ∀ (msgid : ℕ) (h : PktHandler), m_mlh msgid = some h →
      msgid = MAVLINK_MSG_ID_PARAM_VALUE ∨
      msgid = MAVLINK_MSG_ID_SYSTEM_TIME ∨
      msgid = MAVLINK_MSG_ID_RC_CHANNELS := by
    intro msgid h hm
    unfold m_mlh at hm
    split_ifs at hm with h1 h2 h3
    · exact Or.inl h1
    · exact Or.inr (Or.inl h2)
    · exact Or.inr (Or.inr h3)
  refine ⟨fun q hq => ⟨main q hq, reg q.1 q.2 (main q hq)⟩,
          fun msgid hnone h hmem => ?_⟩
  have hsome := main (msgid, h) hmem
  rw [hnone] at hsome
  exact Option.noConfusion hsome

/-- Claim C9 witness: on a stream carrying one PARAM_VALUE message and one
message with the unregistered identifier 7, the registry maps the performed
invocation, and no handler is ever invoked for identifier 7. -/
theorem dispatch_only_registered_witness :
    m_mlh 22 = some PktHandler.hParams ∧
    ∀ h : PktHandler, (7, h) ∉ handleData [⟨some 22, 0⟩, ⟨some 7, 0⟩] :=
  ⟨((dispatch_only_registered [⟨some 22, 0⟩, ⟨some 7, 0⟩]).1
      (22, PktHandler.hParams) (by decide)).1,
   (dispatch_only_registered [⟨some 22, 0⟩, ⟨some 7, 0⟩]).2 7 (by decide)⟩

end RemoteOperation
